import Mathlib

/-!
Verification of the SSE `Session` core (src/src/Session.ts) via a shallow
embedding.  Strings are embedded as `List Char`; every observable effect on
the HTTP response or the session event emitter is recorded in a trace of
`Action`s, so that wire-format and ordering claims can be stated exactly.
-/

set_option maxHeartbeats 1000000

namespace BetterSSE

/-! ## Characters and literal strings of the wire format -/

def LF : Char := '\n'

def CR : Char := '\r'

def COLON : Char := ':'

def eventKey : List Char := "event".toList

def dataKey : List Char := "data".toList

def idKey : List Char := "id".toList

def retryKey : List Char := "retry".toList

def messageKey : List Char := "message".toList

def streamKey : List Char := "stream".toList

def connectedKey : List Char := "connected".toList

def disconnectedKey : List Char := "disconnected".toList

def contentTypeKey : List Char := "Content-Type".toList

def contentTypeVal : List Char := "text/event-stream".toList

def cacheControlKey : List Char := "Cache-Control".toList

def cacheControlVal : List Char := "no-cache, no-transform".toList

def connectionKey : List Char := "Connection".toList

def connectionVal : List Char := "keep-alive".toList

def trueKey : List Char := "true".toList

def falseKey : List Char := "false".toList

def nullKey : List Char := "null".toList

/-! ## Default sanitizer

Modelled from the spec: the default sanitizer lives in `src/lib/sanitize.ts`,
which is not under `src/`; the spec (§4.2) defines it as: "replace every
occurrence of CR, LF, or CRLF with a single LF; then strip any LF characters
from the end of the resulting string". -/

/-- Modelled from the spec: first sanitizer pass — scanning left to right,
every occurrence of CR, LF, or CRLF (a CRLF pair counts as one occurrence)
is replaced with a single LF. -/
def replaceNewlines : List Char → List Char
  | [] => []
  | [c] => if c = CR then [LF] else if c = LF then [LF] else [c]
  | c :: c2 :: rest =>
    if c = CR then
      if c2 = LF then LF :: replaceNewlines rest
      else LF :: replaceNewlines (c2 :: rest)
    else if c = LF then LF :: replaceNewlines (c2 :: rest)
    else c :: replaceNewlines (c2 :: rest)

/-- Modelled from the spec: second sanitizer pass — strip all LF characters
from the end of the string. -/
def stripTrailingLF (l : List Char) : List Char :=
  (l.reverse.dropWhile (fun c => c == LF)).reverse

/-- Modelled from the spec: the default sanitizer (`src/lib/sanitize.ts` is
not under `src/`): newline normalization followed by trailing-LF stripping. -/
def sanitizeDefault (l : List Char) : List Char :=
  stripTrailingLF (replaceNewlines l)

/-- Does the string contain a CR character? -/
def hasCR (l : List Char) : Bool :=
  l.any (fun c => c == CR)

/-- Does the string end with an LF character? -/
def hasTrailingLF (l : List Char) : Bool :=
  (l.getLast?.map (fun c => c == LF)).getD false

/-- Does the string contain two consecutive LF characters? -/
def hasDoubleLF : List Char → Bool
  | [] => false
  | [_] => false
  | a :: b :: rest => (a == LF && b == LF) || hasDoubleLF (b :: rest)

/-! ## Decimal and hexadecimal rendering -/

/-- Base-10 rendering of a natural number, as `Number.prototype.toString`
renders a nonnegative integer. -/
def natToDec (n : Nat) : List Char :=
  Nat.toDigits 10 n

/-- Base-10 rendering of an integer. -/
def intToDec (i : Int) : List Char :=
  if i < 0 then '-' :: natToDec i.natAbs else natToDec i.toNat

/-- Lowercase hexadecimal digit for a nibble. -/
def hexDigit (n : Nat) : Char :=
  if n < 10 then Char.ofNat (48 + n) else Char.ofNat (87 + n)

/-- Two lowercase hexadecimal characters for one byte (reduced mod 256). -/
def hexByte (b : Nat) : List Char :=
  [hexDigit (b % 256 / 16), hexDigit (b % 16)]

/-- `Buffer.prototype.toString("hex")`: lowercase hexadecimal rendering of a
byte sequence. -/
def bytesToHex (bs : List Nat) : List Char :=
  (bs.map hexByte).flatten

/-- Is the character one of `0-9` or `a-f` (the character class of
`/^[0-9a-f]{8}$/`)? -/
def isLowerHexDigit (c : Char) : Bool :=
  (('0' ≤ c) && (c ≤ '9')) || (('a' ≤ c) && (c ≤ 'f'))

/-! ## JavaScript values -/

/-- A JavaScript value, as far as the `Session` operations inspect one:
the operations only test truthiness, test for `undefined`, and stringify. -/
inductive JSValue where
  | str : List Char → JSValue
  | num : Int → JSValue
  | bool : Bool → JSValue
  | null : JSValue
  | undefined : JSValue
deriving DecidableEq, Repr

/-- JavaScript truthiness of a value. -/
def JSValue.truthy : JSValue → Bool
  | .str s => !s.isEmpty
  | .num n => n != 0
  | .bool b => b
  | .null => false
  | .undefined => false

/-- `value.toString()`: `none` models the `TypeError` thrown when the
receiver is `null` or `undefined`. -/
def JSValue.jsToString : JSValue → Option (List Char)
  | .str s => some s
  | .num n => some (intToDec n)
  | .bool b => some (if b then trueKey else falseKey)
  | .null => none
  | .undefined => none

/-- JSON string escape for one character (quote, backslash, LF and CR; the
remaining control-character escapes of JSON never arise in the claims). -/
def jsonEscapeChar (c : Char) : List Char :=
  if c = '"' then ['\\', '"']
  else if c = '\\' then ['\\', '\\']
  else if c = LF then ['\\', 'n']
  else if c = CR then ['\\', 'r']
  else [c]

/-- Modelled from the spec: the default serializer (`src/lib/serialize.ts` is
not under `src/`) is `JSON.stringify`.  `JSON.stringify undefined` returns
`undefined` rather than a string; that out-of-contract case is modelled as
the empty string, and no claim depends on it. -/
def serializeDefault : JSValue → List Char
  | .str s => '"' :: (s.map jsonEscapeChar).flatten ++ ['"']
  | .num n => intToDec n
  | .bool b => if b then trueKey else falseKey
  | .null => nullKey
  | .undefined => []

/-! ## Observable actions, configuration and state -/

/-- One observable effect of a session method on the HTTP response object or
on the session's event emitter, in the order it is performed. -/
inductive Action where
  | setHeader : List Char → List Char → Action
  | setStatusCode : Nat → Action
  | flushHeaders : Action
  | write : List Char → Action
  | emit : List Char → Action
deriving DecidableEq, Repr

/-- Session configuration after option resolution (constructor lines
114-120 of Session.ts). -/
structure SessionConfig where
  serialize : JSValue → List Char
  sanitize : List Char → List Char
  trustClientEventId : Bool
  initialRetry : Option Nat
  statusCode : Nat
  headers : List (List Char × Option (List Char))

/-- The `SessionOptions` object as passed by the caller; `none` throughout
means the field is absent.  The `retry` field distinguishes an absent field
(`none`) from an explicit `null` (`some none`). -/
structure SessionOptions where
  serializer : Option (JSValue → List Char) := none
  sanitizer : Option (List Char → List Char) := none
  trustClientEventId : Option Bool := none
  retry : Option (Option Nat) := none
  statusCode : Option Nat := none
  headers : Option (List (List Char × Option (List Char))) := none

/-- Option resolution performed by the Session constructor (lines 114-120):
each option defaults as documented; `retry` maps an explicit `null` to no
automatic retry frame and an absent field to 2000. -/
def resolveOptions (o : SessionOptions) : SessionConfig :=
  { serialize := o.serializer.getD serializeDefault
    sanitize := o.sanitizer.getD sanitizeDefault
    trustClientEventId := o.trustClientEventId.getD true
    initialRetry :=
      match o.retry with
      | some none => none
      | some (some n) => some n
      | none => some 2000
    statusCode := o.statusCode.getD 200
    headers := o.headers.getD [] }

/-- The configuration obtained from an empty options object. -/
def defaultConfig : SessionConfig :=
  resolveOptions {}

/-- The inbound request metadata the session reads: the value of the
case-insensitive `last-event-id` header, when present. -/
structure Request where
  lastEventIdHeader : Option (List Char)

/-- Mutable session state: the `lastId` property and the trace of observable
actions performed so far. -/
structure SessionState where
  lastId : List Char
  trace : List Action
deriving DecidableEq, Repr

/-- State right after the constructor body: `lastId = ""` (field initializer,
line 92) and nothing performed yet. -/
def initSession : SessionState :=
  { lastId := [], trace := [] }

namespace Session

/-- `writeField` (lines 157-165): sanitize the value and write
`name:sanitizedValue\n`. -/
def writeField (cfg : SessionConfig) (name value : List Char) (s : SessionState) :
    SessionState :=
  { s with trace := s.trace ++ [Action.write (name ++ COLON :: cfg.sanitize value ++ [LF])] }

/-- `dispatch` (lines 170-174): write a bare `\n`. -/
def dispatch (s : SessionState) : SessionState :=
  { s with trace := s.trace ++ [Action.write [LF]] }

/-- `event` (lines 181-185). -/
def event (cfg : SessionConfig) (ty : List Char) (s : SessionState) : SessionState :=
  writeField cfg eventKey ty s

/-- `data` (lines 192-198): serialize, then write a `data` field. -/
def data (cfg : SessionConfig) (d : JSValue) (s : SessionState) : SessionState :=
  writeField cfg dataKey (cfg.serialize d) s

/-- The `id ? id : ""` normalization of `id` (line 208): `null` and the empty
string (which is falsy) both become the empty string. -/
def idString (i : Option (List Char)) : List Char :=
  match i with
  | none => []
  | some v => if v.isEmpty then [] else v

/-- `id` (lines 207-215): write an `id` field and update `lastId` to the
written (unsanitized) value. -/
def id (cfg : SessionConfig) (i : Option (List Char)) (s : SessionState) : SessionState :=
  let stringifed := idString i
  let s1 := writeField cfg idKey stringifed s
  { s1 with lastId := stringifed }

/-- `retry` (lines 222-228): write a `retry` field with the base-10 string of
the time. -/
def retry (cfg : SessionConfig) (time : Nat) (s : SessionState) : SessionState :=
  writeField cfg retryKey (natToDec time) s

/-- `comment` (lines 237-241): write a field with the empty name; an absent
argument becomes the empty string via `text ?? ""`. -/
def comment (cfg : SessionConfig) (text : Option (List Char)) (s : SessionState) :
    SessionState :=
  writeField cfg [] (text.getD []) s

/-- Overload resolution of `push` (lines 258-264): when `eventOrData` is
truthy and `data` is `undefined`, the event name is `"message"` and
`eventOrData` is the payload; otherwise `eventOrData.toString()` is the event
name (`none` models the throw for `null`/`undefined`) and `data` the
payload. -/
def pushResolve (eventOrData : JSValue) (d : JSValue) :
    Option (List Char × JSValue) :=
  if eventOrData.truthy && (d == JSValue.undefined) then
    some (messageKey, eventOrData)
  else
    (eventOrData.jsToString).map (fun n => (n, d))

/-- `push` (lines 254-271): resolve the overload, draw four random bytes
(`rnd`, the bytes returned by `randomBytes(4)`), then compose
`event`, `id`, `data`, `dispatch` in that order. -/
def push (cfg : SessionConfig) (rnd : List Nat) (eventOrData d : JSValue)
    (s : SessionState) : Option SessionState :=
  (pushResolve eventOrData d).map fun p =>
    let nextId := bytesToHex rnd
    dispatch (data cfg p.2 (id cfg (some nextId) (event cfg p.1 s)))

/-- `onConnected` (lines 126-148): initialize `lastId` from the trusted
client header, apply extra headers, set the status code and the three
protocol headers, flush headers, write the automatic retry frame when
configured, and emit `connected`. -/
def onConnected (cfg : SessionConfig) (req : Request) (s : SessionState) :
    SessionState :=
  let s1 :=
    if cfg.trustClientEventId then
      { s with lastId := (req.lastEventIdHeader).getD [] }
    else s
  let s2 :=
    { s1 with
      trace := s1.trace ++
        cfg.headers.map
          (fun (h : List Char × Option (List Char)) => Action.setHeader h.1 (h.2.getD [])) }
  let s3 :=
    { s2 with
      trace := s2.trace ++
        [Action.setStatusCode cfg.statusCode,
         Action.setHeader contentTypeKey contentTypeVal,
         Action.setHeader cacheControlKey cacheControlVal,
         Action.setHeader connectionKey connectionVal,
         Action.flushHeaders] }
  let s4 :=
    match cfg.initialRetry with
    | none => s3
    | some n => dispatch (retry cfg n s3)
  { s4 with trace := s4.trace ++ [Action.emit connectedKey] }

/-- `onDisconnected` (lines 150-152): emit `disconnected`. -/
def onDisconnected (s : SessionState) : SessionState :=
  { s with trace := s.trace ++ [Action.emit disconnectedKey] }

end Session

/-! ## Session lifecycle runs

The constructor (lines 122-123) registers `onDisconnected` on the
transport's `close` notification and schedules `onConnected` with
`setImmediate`.  A run of the session is the initial state together with a
sequence of external events delivered by the single-threaded event loop:
the `setImmediate` callback firing (`tick`, exactly once), the transport's
`close` notification (`close`), and caller-issued method calls (`op`). -/

/-- One caller-issued encoder call, with its arguments (for `push`, also the
four bytes drawn by `randomBytes(4)` during that call). -/
inductive CallerOp where
  | eventOp : List Char → CallerOp
  | dataOp : JSValue → CallerOp
  | idOp : Option (List Char) → CallerOp
  | retryOp : Nat → CallerOp
  | commentOp : Option (List Char) → CallerOp
  | dispatchOp : CallerOp
  | pushOp : List Nat → JSValue → JSValue → CallerOp
deriving DecidableEq, Repr

/-- Effect of one caller-issued call on the session state.  A `push` whose
overload resolution throws (event name with no string form) writes nothing:
the throw happens before any write, so the state is unchanged. -/
def applyOp (cfg : SessionConfig) : CallerOp → SessionState → SessionState
  | .eventOp t, s => Session.event cfg t s
  | .dataOp d, s => Session.data cfg d s
  | .idOp i, s => Session.id cfg i s
  | .retryOp n, s => Session.retry cfg n s
  | .commentOp t, s => Session.comment cfg t s
  | .dispatchOp, s => Session.dispatch s
  | .pushOp rnd e d, s => (Session.push cfg rnd e d s).getD s

/-- One external event delivered to the session by the event loop. -/
inductive ExtEvent where
  | tick : ExtEvent
  | close : ExtEvent
  | op : CallerOp → ExtEvent
deriving DecidableEq, Repr

/-- Effect of one external event on the session state: the `setImmediate`
callback is `onConnected`, the `close` handler is `onDisconnected`, and a
caller call applies the corresponding method. -/
def stepEvent (cfg : SessionConfig) (req : Request) :
    ExtEvent → SessionState → SessionState
  | .tick, s => Session.onConnected cfg req s
  | .close, s => Session.onDisconnected s
  | .op o, s => applyOp cfg o s

/-- Deliver a sequence of external events to the session. -/
def runEvents (cfg : SessionConfig) (req : Request) :
    List ExtEvent → SessionState → SessionState
  | [], s => s
  | e :: es, s => runEvents cfg req es (stepEvent cfg req e s)

/-- The actions `writeField` appends for one field. -/
def fieldAction (cfg : SessionConfig) (name value : List Char) : Action :=
  Action.write (name ++ COLON :: cfg.sanitize value ++ [LF])

/-- The four actions one successful `push` appends: an `event` field, an `id`
field carrying the hex rendering of the drawn bytes, a `data` field carrying
the serialized payload, and the dispatch newline — in that order. -/
def pushTrace (cfg : SessionConfig) (rnd : List Nat) (name : List Char)
    (raw : JSValue) : List Action :=
  [fieldAction cfg eventKey name,
   fieldAction cfg idKey (bytesToHex rnd),
   fieldAction cfg dataKey (cfg.serialize raw),
   Action.write [LF]]

/-- The actions one caller-issued call appends to the trace. -/
def opTrace (cfg : SessionConfig) : CallerOp → List Action
  | .eventOp t => [fieldAction cfg eventKey t]
  | .dataOp d => [fieldAction cfg dataKey (cfg.serialize d)]
  | .idOp i => [fieldAction cfg idKey (Session.idString i)]
  | .retryOp n => [fieldAction cfg retryKey (natToDec n)]
  | .commentOp t => [fieldAction cfg [] (t.getD [])]
  | .dispatchOp => [Action.write [LF]]
  | .pushOp rnd e d =>
    match Session.pushResolve e d with
    | none => []
    | some p => pushTrace cfg rnd p.1 p.2

/-- The actions the deferred initialization (`onConnected`) appends. -/
def connectedSegment (cfg : SessionConfig) : List Action :=
  cfg.headers.map
      (fun (h : List Char × Option (List Char)) => Action.setHeader h.1 (h.2.getD []))
    ++ [Action.setStatusCode cfg.statusCode,
        Action.setHeader contentTypeKey contentTypeVal,
        Action.setHeader cacheControlKey cacheControlVal,
        Action.setHeader connectionKey connectionVal,
        Action.flushHeaders]
    ++ (match cfg.initialRetry with
        | none => []
        | some n => [fieldAction cfg retryKey (natToDec n), Action.write [LF]])
    ++ [Action.emit connectedKey]

/-- The actions one external event appends to the trace. -/
def eventTrace (cfg : SessionConfig) : ExtEvent → List Action
  | .tick => connectedSegment cfg
  | .close => [Action.emit disconnectedKey]
  | .op o => opTrace cfg o

/-- The whole trace of a sequence of external events. -/
def traceOf (cfg : SessionConfig) (evs : List ExtEvent) : List Action :=
  (evs.map (eventTrace cfg)).flatten

/-! ## Stream adapter

`stream` (lines 286-309) subscribes to the producer's `data`, `end`, `close`
and `error` notifications.  A producer behaviour is embedded as the sequence
of notifications it emits; the returned promise is embedded as a settlement
cell in which only the first settlement sticks (`once` registration and
promise semantics coincide on this point). -/

/-- One chunk emitted by the producer: a `Buffer` (carried here already
decoded to the text its `toString()` yields) or a string. -/
inductive Chunk where
  | buffer : List Char → Chunk
  | strChunk : List Char → Chunk
deriving DecidableEq, Repr

/-- The text `stream`'s data handler forwards: `chunk.toString()` for a
`Buffer`, the chunk itself otherwise (lines 296-300). -/
def Chunk.toText : Chunk → List Char
  | .buffer t => t
  | .strChunk t => t

/-- One notification emitted by the producer stream. -/
inductive StreamEvent where
  | dataEv : Chunk → StreamEvent
  | endEv : StreamEvent
  | closeEv : StreamEvent
  | errorEv : JSValue → StreamEvent
deriving DecidableEq, Repr

/-- Does the notification list contain a data chunk? -/
def hasDataEv (l : List StreamEvent) : Bool :=
  l.any fun e =>
    match e with
    | .dataEv _ => true
    | _ => false

/-- Settlement of the promise returned by `stream`. -/
inductive Settled where
  | resolved : Bool → Settled
  | rejected : JSValue → Settled
deriving DecidableEq, Repr

/-- State of one `stream` call: the promise settlement (`none` while
pending), the number of pushes performed so far (used to index the random
draws), and the session state. -/
structure StreamRun where
  settled : Option Settled
  pushCount : Nat
  st : SessionState
deriving DecidableEq, Repr

/-- Settle the promise; a later settlement of an already settled promise is
a no-op. -/
def settle (r : StreamRun) (v : Settled) : StreamRun :=
  match r.settled with
  | some _ => r
  | none => { r with settled := some v }

/-- Effect of one producer notification, per the handlers registered at
lines 293-307: a data chunk is forwarded through
`push(event, chunkText)`; `end` and `close` resolve with `true`; `error`
rejects with the error value.  `rnds k` gives the four bytes drawn by the
`k`-th push of this stream call. -/
def streamStep (cfg : SessionConfig) (evName : List Char) (rnds : Nat → List Nat) :
    StreamEvent → StreamRun → StreamRun
  | .dataEv c, r =>
    match Session.push cfg (rnds r.pushCount) (JSValue.str evName)
        (JSValue.str c.toText) r.st with
    | some st2 => { settled := r.settled, pushCount := r.pushCount + 1, st := st2 }
    | none => r
  | .endEv, r => settle r (Settled.resolved true)
  | .closeEv, r => settle r (Settled.resolved true)
  | .errorEv e, r => settle r (Settled.rejected e)

/-- Deliver the producer's notifications in emission order. -/
def runStream (cfg : SessionConfig) (evName : List Char) (rnds : Nat → List Nat) :
    List StreamEvent → StreamRun → StreamRun
  | [], r => r
  | e :: es, r => runStream cfg evName rnds es (streamStep cfg evName rnds e r)

/-- Resolution of `StreamOptions` (line 290): the event name defaults to
`"stream"`. -/
def resolveStreamOptions (o : Option (List Char)) : List Char :=
  o.getD streamKey

/-- The actions pushed for the chunk with stream-local index `p.1`. -/
def streamChunkTrace (cfg : SessionConfig) (rnds : Nat → List Nat)
    (evName : List Char) (p : Nat × Chunk) : List Action :=
  pushTrace cfg (rnds p.1) evName (JSValue.str p.2.toText)

/-! ## Basic lemmas about the operations -/

lemma idString_some (v : List Char) : Session.idString (some v) = v := by
  by_cases h : v.isEmpty
  · have hv : v = [] := by simpa using h
    simp [Session.idString, hv]
  · simp [Session.idString, h]

lemma Session.push_eq (cfg : SessionConfig) (rnd : List Nat) (e d : JSValue)
    (p : List Char × JSValue) (s : SessionState)
    (h : Session.pushResolve e d = some p) :
    Session.push cfg rnd e d s =
      some { lastId := bytesToHex rnd, trace := s.trace ++ pushTrace cfg rnd p.1 p.2 } := by
  unfold Session.push
  rw [h]
  simp [Session.event, Session.data, Session.id, Session.dispatch, Session.writeField,
    pushTrace, fieldAction, idString_some, List.append_assoc]

/-- The value `lastId` holds after one caller-issued call, given its value
before. -/
def opLastId (o : CallerOp) (prev : List Char) : List Char :=
  match o with
  | .idOp i => Session.idString i
  | .pushOp rnd e d =>
    match Session.pushResolve e d with
    | none => prev
    | some _ => bytesToHex rnd
  | _ => prev

lemma applyOp_eq (cfg : SessionConfig) (o : CallerOp) (s : SessionState) :
    applyOp cfg o s =
      { lastId := opLastId o s.lastId, trace := s.trace ++ opTrace cfg o } := by
  cases o with
  | eventOp t =>
    simp [applyOp, opLastId, opTrace, Session.event, Session.writeField, fieldAction]
  | dataOp d =>
    simp [applyOp, opLastId, opTrace, Session.data, Session.writeField, fieldAction]
  | idOp i =>
    simp [applyOp, opLastId, opTrace, Session.id, Session.writeField, fieldAction]
  | retryOp n =>
    simp [applyOp, opLastId, opTrace, Session.retry, Session.writeField, fieldAction]
  | commentOp t =>
    simp [applyOp, opLastId, opTrace, Session.comment, Session.writeField, fieldAction]
  | dispatchOp =>
    simp [applyOp, opLastId, opTrace, Session.dispatch]
  | pushOp rnd e d =>
    cases hres : Session.pushResolve e d with
    | none =>
      simp [applyOp, opLastId, opTrace, hres, Session.push]
    | some p =>
      simp [applyOp, opLastId, opTrace, hres, Session.push_eq cfg rnd e d p s hres]

lemma onConnected_eq (cfg : SessionConfig) (req : Request) (s : SessionState) :
    Session.onConnected cfg req s =
      { lastId :=
          if cfg.trustClientEventId then (req.lastEventIdHeader).getD [] else s.lastId,
        trace := s.trace ++ connectedSegment cfg } := by
  cases htr : cfg.trustClientEventId <;>
    cases hr : cfg.initialRetry <;>
      simp [Session.onConnected, connectedSegment, Session.dispatch, Session.retry,
        Session.writeField, fieldAction, htr, hr, List.append_assoc]

lemma onDisconnected_eq (s : SessionState) :
    Session.onDisconnected s =
      { lastId := s.lastId, trace := s.trace ++ [Action.emit disconnectedKey] } :=
  rfl

lemma stepEvent_trace (cfg : SessionConfig) (req : Request) (e : ExtEvent)
    (s : SessionState) :
    (stepEvent cfg req e s).trace = s.trace ++ eventTrace cfg e := by
  cases e with
  | tick => rw [stepEvent, onConnected_eq]; rfl
  | close => rfl
  | op o => rw [stepEvent, applyOp_eq]; rfl

lemma runEvents_trace (cfg : SessionConfig) (req : Request) :
    ∀ (evs : List ExtEvent) (s : SessionState),
      (runEvents cfg req evs s).trace = s.trace ++ traceOf cfg evs
  | [], s => by simp [runEvents, traceOf]
  | e :: es, s => by
    rw [runEvents, runEvents_trace cfg req es, stepEvent_trace]
    simp [traceOf, List.append_assoc]

/-! ## Lemmas about the default sanitizer -/

lemma mem_replaceNewlines (x : Char) :
    ∀ l : List Char, x ∈ replaceNewlines l → x = LF ∨ (x ≠ CR ∧ x ≠ LF ∧ x ∈ l)
  | [], h => by simp [replaceNewlines] at h
  | [c], h => by
    by_cases hc : c = CR
    · rw [replaceNewlines, if_pos hc] at h
      exact Or.inl (List.mem_singleton.mp h)
    · by_cases hlf : c = LF
      · rw [replaceNewlines, if_neg hc, if_pos hlf] at h
        exact Or.inl (List.mem_singleton.mp h)
      · rw [replaceNewlines, if_neg hc, if_neg hlf] at h
        have hx := List.mem_singleton.mp h
        subst hx
        exact Or.inr ⟨hc, hlf, List.mem_singleton.mpr rfl⟩
  | c :: c2 :: rest, h => by
    by_cases hc : c = CR
    · by_cases h2 : c2 = LF
      · rw [replaceNewlines, if_pos hc, if_pos h2] at h
        rcases List.mem_cons.mp h with h | h
        · exact Or.inl h
        · rcases mem_replaceNewlines x rest h with h' | h'
          · exact Or.inl h'
          · exact Or.inr ⟨h'.1, h'.2.1, by simp [h'.2.2]⟩
      · rw [replaceNewlines, if_pos hc, if_neg h2] at h
        rcases List.mem_cons.mp h with h | h
        · exact Or.inl h
        · rcases mem_replaceNewlines x (c2 :: rest) h with h' | h'
          · exact Or.inl h'
          · exact Or.inr ⟨h'.1, h'.2.1, List.mem_cons_of_mem _ h'.2.2⟩
    · by_cases hlf : c = LF
      · rw [replaceNewlines, if_neg hc, if_pos hlf] at h
        rcases List.mem_cons.mp h with h | h
        · exact Or.inl h
        · rcases mem_replaceNewlines x (c2 :: rest) h with h' | h'
          · exact Or.inl h'
          · exact Or.inr ⟨h'.1, h'.2.1, List.mem_cons_of_mem _ h'.2.2⟩
      · rw [replaceNewlines, if_neg hc, if_neg hlf] at h
        rcases List.mem_cons.mp h with h | h
        · subst h
          exact Or.inr ⟨hc, hlf, List.mem_cons_self _ _⟩
        · rcases mem_replaceNewlines x (c2 :: rest) h with h' | h'
          · exact Or.inl h'
          · exact Or.inr ⟨h'.1, h'.2.1, List.mem_cons_of_mem _ h'.2.2⟩

lemma CR_not_mem_replaceNewlines (l : List Char) : CR ∉ replaceNewlines l := by
  intro h
  rcases mem_replaceNewlines CR l h with h' | h'
  · exact absurd h' (by decide)
  · exact absurd rfl h'.1

lemma mem_stripTrailingLF {x : Char} {l : List Char} (h : x ∈ stripTrailingLF l) :
    x ∈ l := by
  unfold stripTrailingLF at h
  rw [List.mem_reverse] at h
  have hsub := List.dropWhile_sublist (l := l.reverse) (fun c => c == LF)
  have := hsub.mem h
  rwa [List.mem_reverse] at this

lemma dropWhile_head_false (p : Char → Bool) :
    ∀ l : List Char, (((l.dropWhile p).head?.map p).getD false) = false
  | [] => by simp
  | c :: t => by
    by_cases hc : p c
    · simpa [List.dropWhile_cons, hc] using dropWhile_head_false p t
    · simp [List.dropWhile_cons, hc]

lemma replaceNewlines_id :
    ∀ l : List Char, (∀ c ∈ l, c ≠ CR ∧ c ≠ LF) → replaceNewlines l = l
  | [], _ => rfl
  | [c], h => by
    obtain ⟨h1, h2⟩ := h c (by simp)
    rw [replaceNewlines, if_neg h1, if_neg h2]
  | c :: c2 :: rest, h => by
    obtain ⟨h1, h2⟩ := h c (by simp)
    rw [replaceNewlines, if_neg h1, if_neg h2,
      replaceNewlines_id (c2 :: rest) (fun x hx => h x (List.mem_cons_of_mem _ hx))]

lemma stripTrailingLF_id (l : List Char) (h : ∀ c ∈ l, c ≠ LF) :
    stripTrailingLF l = l := by
  unfold stripTrailingLF
  have hd : l.reverse.dropWhile (fun c => c == LF) = l.reverse := by
    cases hrev : l.reverse with
    | nil => simp
    | cons c t =>
      have hc : c ∈ l := by
        rw [← List.mem_reverse, hrev]
        simp
      simp [List.dropWhile_cons, h c hc]
  rw [hd, List.reverse_reverse]

lemma sanitizeDefault_id (l : List Char) (h : ∀ c ∈ l, c ≠ CR ∧ c ≠ LF) :
    sanitizeDefault l = l := by
  unfold sanitizeDefault
  rw [replaceNewlines_id l h, stripTrailingLF_id l (fun c hc => (h c hc).2)]

/-! ## Lemmas about hexadecimal identifiers -/

lemma hexDigit_inj16 : ∀ a b : Fin 16, hexDigit a.val = hexDigit b.val → a = b := by
  decide

lemma hexDigit_lower16 : ∀ a : Fin 16, isLowerHexDigit (hexDigit a.val) = true := by
  decide

lemma hexDigit_notNewline16 :
    ∀ a : Fin 16, hexDigit a.val ≠ CR ∧ hexDigit a.val ≠ LF := by
  decide

lemma hexDigit_inj (a b : Nat) (ha : a < 16) (hb : b < 16)
    (h : hexDigit a = hexDigit b) : a = b := by
  have := hexDigit_inj16 ⟨a, ha⟩ ⟨b, hb⟩ h
  exact congrArg Fin.val this

lemma hexByte_inj (a b : Nat) (ha : a < 256) (hb : b < 256)
    (h : hexByte a = hexByte b) : a = b := by
  unfold hexByte at h
  have hma : a % 256 = a := Nat.mod_eq_of_lt ha
  have hmb : b % 256 = b := Nat.mod_eq_of_lt hb
  rw [hma, hmb] at h
  injection h with h1 h2
  injection h2 with h2 _
  have e1 : a / 16 = b / 16 := hexDigit_inj _ _ (by omega) (by omega) h1
  have e2 : a % 16 = b % 16 := hexDigit_inj _ _ (by omega) (by omega) h2
  omega

lemma bytesToHex_cons (b : Nat) (bs : List Nat) :
    bytesToHex (b :: bs) = hexByte b ++ bytesToHex bs := by
  simp [bytesToHex]

lemma bytesToHex_length : ∀ bs : List Nat, (bytesToHex bs).length = 2 * bs.length
  | [] => rfl
  | b :: bs => by
    rw [bytesToHex_cons, List.length_append, bytesToHex_length bs]
    simp [hexByte]
    omega

lemma bytesToHex_inj :
    ∀ bs1 bs2 : List Nat, bs1.length = bs2.length →
      (∀ x ∈ bs1, x < 256) → (∀ x ∈ bs2, x < 256) →
      bytesToHex bs1 = bytesToHex bs2 → bs1 = bs2
  | [], [], _, _, _, _ => rfl
  | [], _ :: _, hl, _, _, _ => by simp at hl
  | _ :: _, [], hl, _, _, _ => by simp at hl
  | a :: as, b :: bs, hl, h1, h2, h => by
    rw [bytesToHex_cons, bytesToHex_cons] at h
    rw [hexByte, hexByte] at h
    simp only [List.cons_append, List.nil_append] at h
    injection h with e1 h
    injection h with e2 hrest
    have hab : a = b := by
      apply hexByte_inj a b (h1 a (by simp)) (h2 b (by simp))
      rw [hexByte, hexByte, e1, e2]
    have htail : as = bs :=
      bytesToHex_inj as bs (by simpa using hl)
        (fun x hx => h1 x (List.mem_cons_of_mem _ hx))
        (fun x hx => h2 x (List.mem_cons_of_mem _ hx)) hrest
    rw [hab, htail]

lemma mem_bytesToHex (c : Char) (bs : List Nat) (h : c ∈ bytesToHex bs) :
    ∃ n, n < 16 ∧ c = hexDigit n := by
  unfold bytesToHex at h
  rw [List.mem_flatten] at h
  obtain ⟨l, hl, hc⟩ := h
  rw [List.mem_map] at hl
  obtain ⟨b, _, rfl⟩ := hl
  rw [hexByte] at hc
  rcases List.mem_cons.mp hc with h' | h'
  · exact ⟨b % 256 / 16, by omega, h'⟩
  · rcases List.mem_singleton.mp h' with h'
    exact ⟨b % 16, by omega, by simpa⟩

lemma bytesToHex_lowerHex (c : Char) (bs : List Nat) (h : c ∈ bytesToHex bs) :
    isLowerHexDigit c = true := by
  obtain ⟨n, hn, rfl⟩ := mem_bytesToHex c bs h
  exact hexDigit_lower16 ⟨n, hn⟩

lemma bytesToHex_noNewlines (c : Char) (bs : List Nat) (h : c ∈ bytesToHex bs) :
    c ≠ CR ∧ c ≠ LF := by
  obtain ⟨n, hn, rfl⟩ := mem_bytesToHex c bs h
  exact hexDigit_notNewline16 ⟨n, hn⟩

/-! ## Lemmas about the stream adapter -/

lemma push_str (cfg : SessionConfig) (rnd : List Nat) (a b : List Char)
    (s : SessionState) :
    Session.push cfg rnd (JSValue.str a) (JSValue.str b) s =
      some { lastId := bytesToHex rnd,
             trace := s.trace ++ pushTrace cfg rnd a (JSValue.str b) } := by
  have hres : Session.pushResolve (JSValue.str a) (JSValue.str b) =
      some (a, JSValue.str b) := by
    have hcond :
        ((JSValue.str a).truthy && (JSValue.str b == JSValue.undefined)) = false := by
      simp
    unfold Session.pushResolve
    rw [hcond]
    simp [JSValue.jsToString]
  exact Session.push_eq cfg rnd _ _ (a, JSValue.str b) s hres

lemma streamStep_data (cfg : SessionConfig) (ev : List Char) (rnds : Nat → List Nat)
    (c : Chunk) (r : StreamRun) :
    streamStep cfg ev rnds (StreamEvent.dataEv c) r =
      { settled := r.settled, pushCount := r.pushCount + 1,
        st := { lastId := bytesToHex (rnds r.pushCount),
                trace := r.st.trace ++
                  pushTrace cfg (rnds r.pushCount) ev (JSValue.str c.toText) } } := by
  rw [streamStep, push_str]

lemma runStream_append (cfg : SessionConfig) (ev : List Char) (rnds : Nat → List Nat) :
    ∀ (l1 l2 : List StreamEvent) (r : StreamRun),
      runStream cfg ev rnds (l1 ++ l2) r =
        runStream cfg ev rnds l2 (runStream cfg ev rnds l1 r)
  | [], l2, r => rfl
  | e :: es, l2, r => by
    rw [List.cons_append, runStream, runStream, runStream_append cfg ev rnds es l2]

lemma runStream_chunks (cfg : SessionConfig) (ev : List Char) (rnds : Nat → List Nat) :
    ∀ (chunks : List Chunk) (k : Nat) (set0 : Option Settled) (s : SessionState),
      ∃ lid,
        runStream cfg ev rnds (chunks.map StreamEvent.dataEv)
            { settled := set0, pushCount := k, st := s } =
          { settled := set0, pushCount := k + chunks.length,
            st := { lastId := lid,
                    trace := s.trace ++
                      ((List.enumFrom k chunks).map
                        (streamChunkTrace cfg rnds ev)).flatten } }
  | [], k, set0, s => ⟨s.lastId, by simp [runStream]⟩
  | c :: cs, k, set0, s => by
    obtain ⟨lid, hrec⟩ :=
      runStream_chunks cfg ev rnds cs (k + 1) set0
        { lastId := bytesToHex (rnds k),
          trace := s.trace ++ pushTrace cfg (rnds k) ev (JSValue.str c.toText) }
    refine ⟨lid, ?_⟩
    rw [List.map_cons, runStream, streamStep_data, hrec, List.enumFrom_cons]
    simp [StreamRun.mk.injEq, SessionState.mk.injEq, streamChunkTrace,
      List.append_assoc]
    omega

lemma runStream_settled (cfg : SessionConfig) (ev : List Char) (rnds : Nat → List Nat) :
    ∀ (evs : List StreamEvent) (r : StreamRun) (x : Settled),
      hasDataEv evs = false → r.settled = some x →
      runStream cfg ev rnds evs r = r
  | [], _, _, _, _ => rfl
  | e :: es, r, x, hd, hs => by
    rw [hasDataEv, List.any_cons, Bool.or_eq_false_iff] at hd
    obtain ⟨hfe, hes⟩ := hd
    have hstep : streamStep cfg ev rnds e r = r := by
      cases e with
      | dataEv c => simp at hfe
      | endEv =>
        rw [streamStep]
        unfold settle
        rw [hs]
      | closeEv =>
        rw [streamStep]
        unfold settle
        rw [hs]
      | errorEv err =>
        rw [streamStep]
        unfold settle
        rw [hs]
    rw [runStream, hstep]
    exact runStream_settled cfg ev rnds es r x hes hs

/-! ## Lemmas about the initialization segment -/

/-- The header phase of `onConnected`: extra headers, status code, the three
protocol headers, and the header flush. -/
def headerBlock (cfg : SessionConfig) : List Action :=
  cfg.headers.map
      (fun (h : List Char × Option (List Char)) => Action.setHeader h.1 (h.2.getD []))
    ++ [Action.setStatusCode cfg.statusCode,
        Action.setHeader contentTypeKey contentTypeVal,
        Action.setHeader cacheControlKey cacheControlVal,
        Action.setHeader connectionKey connectionVal,
        Action.flushHeaders]

/-- The automatic `retry(...).dispatch()` phase of `onConnected`: empty when
the configured reconnection time is `null`. -/
def retrySegment (cfg : SessionConfig) : List Action :=
  match cfg.initialRetry with
  | none => []
  | some n => [fieldAction cfg retryKey (natToDec n), Action.write [LF]]

/-- Everything `onConnected` performs before emitting `connected`. -/
def preConnected (cfg : SessionConfig) : List Action :=
  headerBlock cfg ++ retrySegment cfg

lemma connectedSegment_eq (cfg : SessionConfig) :
    connectedSegment cfg = preConnected cfg ++ [Action.emit connectedKey] := by
  unfold connectedSegment preConnected headerBlock retrySegment
  simp [List.append_assoc]

lemma flushHeaders_mem_headerBlock (cfg : SessionConfig) :
    Action.flushHeaders ∈ headerBlock cfg := by
  unfold headerBlock
  simp

lemma flushHeaders_mem_preConnected (cfg : SessionConfig) :
    Action.flushHeaders ∈ preConnected cfg :=
  List.mem_append_left _ (flushHeaders_mem_headerBlock cfg)

lemma headerBlock_no_emit (cfg : SessionConfig) (a : Action)
    (ha : a ∈ headerBlock cfg) (k : List Char) : a ≠ Action.emit k := by
  unfold headerBlock at ha
  rcases List.mem_append.mp ha with h' | h'
  · obtain ⟨p, _, rfl⟩ := List.mem_map.mp h'
    intro hx
    cases hx
  · intro hx
    subst hx
    simp at h'

lemma headerBlock_no_write (cfg : SessionConfig) (a : Action)
    (ha : a ∈ headerBlock cfg) (v : List Char) : a ≠ Action.write v := by
  unfold headerBlock at ha
  rcases List.mem_append.mp ha with h' | h'
  · obtain ⟨p, _, rfl⟩ := List.mem_map.mp h'
    intro hx
    cases hx
  · intro hx
    subst hx
    simp at h'

lemma retrySegment_writes (cfg : SessionConfig) (a : Action)
    (ha : a ∈ retrySegment cfg) : ∃ v, a = Action.write v := by
  unfold retrySegment at ha
  cases hr : cfg.initialRetry with
  | none =>
    rw [hr] at ha
    simp at ha
  | some n =>
    rw [hr] at ha
    rcases List.mem_cons.mp ha with h | h
    · exact ⟨_, h⟩
    · exact ⟨_, List.mem_singleton.mp h⟩

lemma preConnected_no_emit (cfg : SessionConfig) (a : Action)
    (ha : a ∈ preConnected cfg) (k : List Char) : a ≠ Action.emit k := by
  rcases List.mem_append.mp ha with h | h
  · exact headerBlock_no_emit cfg a h k
  · obtain ⟨v, rfl⟩ := retrySegment_writes cfg a h
    intro hx
    cases hx

lemma opTrace_writes (cfg : SessionConfig) (o : CallerOp) (a : Action)
    (ha : a ∈ opTrace cfg o) : ∃ v, a = Action.write v := by
  cases o with
  | eventOp t => exact ⟨_, List.mem_singleton.mp ha⟩
  | dataOp d => exact ⟨_, List.mem_singleton.mp ha⟩
  | idOp i => exact ⟨_, List.mem_singleton.mp ha⟩
  | retryOp n => exact ⟨_, List.mem_singleton.mp ha⟩
  | commentOp t => exact ⟨_, List.mem_singleton.mp ha⟩
  | dispatchOp => exact ⟨_, List.mem_singleton.mp ha⟩
  | pushOp rnd e d =>
    rw [opTrace] at ha
    cases hres : Session.pushResolve e d with
    | none =>
      rw [hres] at ha
      simp at ha
    | some p =>
      rw [hres] at ha
      simp only [pushTrace, fieldAction, List.mem_cons, List.mem_singleton] at ha
      rcases ha with h | h | h | h | h
      · exact ⟨_, h⟩
      · exact ⟨_, h⟩
      · exact ⟨_, h⟩
      · exact ⟨_, h⟩
      · simp at h

lemma eventTrace_no_connected (cfg : SessionConfig) (e : ExtEvent)
    (hne : e ≠ ExtEvent.tick) : Action.emit connectedKey ∉ eventTrace cfg e := by
  cases e with
  | tick => exact absurd rfl hne
  | close =>
    intro h
    exact absurd (List.mem_singleton.mp h) (by decide)
  | op o =>
    intro h
    obtain ⟨v, hv⟩ := opTrace_writes cfg o _ h
    cases hv

lemma traceOf_cons (cfg : SessionConfig) (e : ExtEvent) (es : List ExtEvent) :
    traceOf cfg (e :: es) = eventTrace cfg e ++ traceOf cfg es := by
  simp [traceOf]

lemma traceOf_no_connected (cfg : SessionConfig) :
    ∀ evs : List ExtEvent, evs.count ExtEvent.tick = 0 →
      Action.emit connectedKey ∉ traceOf cfg evs
  | [], _ => by simp [traceOf]
  | e :: es, h => by
    rw [List.count_cons] at h
    have hne : e ≠ ExtEvent.tick := by
      intro hx
      subst hx
      simp at h
    have hes : es.count ExtEvent.tick = 0 := by omega
    rw [traceOf_cons]
    intro hmem
    rcases List.mem_append.mp hmem with h' | h'
    · exact eventTrace_no_connected cfg e hne h'
    · exact traceOf_no_connected cfg es hes h'

lemma traceOf_connected_decomp (cfg : SessionConfig) :
    ∀ evs : List ExtEvent, evs.count ExtEvent.tick = 1 →
      ∃ l₁ l₂, traceOf cfg evs = l₁ ++ Action.emit connectedKey :: l₂ ∧
        Action.flushHeaders ∈ l₁ ∧
        Action.emit connectedKey ∉ l₁ ∧ Action.emit connectedKey ∉ l₂
  | [], h => by simp [List.count_nil] at h
  | e :: es, h => by
    by_cases he : e = ExtEvent.tick
    · subst he
      rw [List.count_cons] at h
      simp at h
      have hes : es.count ExtEvent.tick = 0 := h
      refine ⟨preConnected cfg, traceOf cfg es, ?_, flushHeaders_mem_preConnected cfg,
        fun hx => preConnected_no_emit cfg _ hx connectedKey rfl,
        traceOf_no_connected cfg es hes⟩
      rw [traceOf_cons]
      show connectedSegment cfg ++ traceOf cfg es = _
      rw [connectedSegment_eq]
      simp [List.append_assoc]
    · rw [List.count_cons] at h
      have hne : (e == ExtEvent.tick) = false := by
        simp [he]
      rw [hne] at h
      simp at h
      obtain ⟨l₁, l₂, heq, hflush, hnot1, hnot2⟩ := traceOf_connected_decomp cfg es h
      refine ⟨eventTrace cfg e ++ l₁, l₂, ?_, List.mem_append_right _ hflush, ?_, hnot2⟩
      · rw [traceOf_cons, heq]
        simp [List.append_assoc]
      · intro hx
        rcases List.mem_append.mp hx with h' | h'
        · exact eventTrace_no_connected cfg e he h'
        · exact hnot1 h'

/-! ## Claims -/

/-- An input on which the default sanitizer leaves two consecutive LF
characters in place. -/
def doubleLFInput : List Char := ['a', LF, LF, 'b']

/-- Claim C1, counterexample: the default sanitizer maps each individual CR,
LF or CRLF occurrence to one LF, so the input `"a\n\nb"` is left unchanged
and its two consecutive internal LF characters survive — refuting the part
of the claim that says the result contains no run of more than one
consecutive LF. -/
theorem C1_counterexample :
    sanitizeDefault doubleLFInput = doubleLFInput ∧
    hasDoubleLF doubleLFInput = true := by
  decide

/-- Claim C1, amended: for every input string, the default sanitizer
(replace every CR, LF or CRLF occurrence with a single LF, then strip
trailing LFs) yields a string with no CR character and no trailing LF;
internal runs of consecutive LFs may remain. -/
theorem C1_sanitizer_amended (l : List Char) :
    hasCR (sanitizeDefault l) = false ∧ hasTrailingLF (sanitizeDefault l) = false := by
  constructor
  · unfold hasCR
    rw [List.any_eq_false]
    intro x hx
    have hx' : x ∈ replaceNewlines l := mem_stripTrailingLF hx
    have hne : x ≠ CR := by
      rcases mem_replaceNewlines x l hx' with h | h
      · subst h
        decide
      · exact h.1
    simp [hne]
  · unfold sanitizeDefault stripTrailingLF hasTrailingLF
    rw [List.getLast?_reverse]
    exact dropWhile_head_false _ _

/-- Claim C2: `writeField` writes exactly `name:sanitize(value)\n`,
`dispatch` writes exactly `\n`, and `comment()` with no argument writes the
line `:\n` (an empty-name field with empty value) under the default
sanitizer; none of them touches `lastId`. -/
theorem C2_wire_format (cfg : SessionConfig) :
    (∀ (name value : List Char) (s : SessionState),
        Session.writeField cfg name value s =
          { lastId := s.lastId,
            trace := s.trace ++
              [Action.write (name ++ COLON :: cfg.sanitize value ++ [LF])] })
    ∧ (∀ s : SessionState,
        Session.dispatch s =
          { lastId := s.lastId, trace := s.trace ++ [Action.write [LF]] })
    ∧ (cfg.sanitize = sanitizeDefault →
        ∀ s : SessionState,
          Session.comment cfg none s =
            { lastId := s.lastId, trace := s.trace ++ [Action.write [COLON, LF]] }) := by
  refine ⟨fun name value s => rfl, fun s => rfl, fun hsan s => ?_⟩
  have h0 : sanitizeDefault ([] : List Char) = [] := by decide
  simp [Session.comment, Session.writeField, hsan, h0]

/-- Claim C2, witness: the three equations at the default configuration and
the initial state. -/
theorem C2_wire_format_witness :
    defaultConfig.sanitize = sanitizeDefault ∧
    Session.comment defaultConfig none initSession =
      { lastId := [], trace := [Action.write [COLON, LF]] } := by
  refine ⟨rfl, ?_⟩
  have h := (C2_wire_format defaultConfig).2.2 rfl initSession
  simpa using h

/-- Claim C3, counterexample: `push` decides the overload by the
truthiness of its first argument, not by the number of arguments; pushing
the empty string (falsy) as the only argument writes the event frame
`event:\n` — the event type is the empty string, not `"message"`. -/
theorem C3_counterexample :
    (Session.push defaultConfig [0, 0, 0, 0] (JSValue.str []) JSValue.undefined
        initSession).map (fun st => st.trace.head?) =
      some (some (Action.write (eventKey ++ [COLON, LF])))
    ∧ Action.write (eventKey ++ [COLON, LF]) ≠
        Action.write (eventKey ++ COLON :: messageKey ++ [LF]) := by
  decide

/-- Claim C3, amended: `push(x)` with one argument dispatches an event of
type `"message"` with `x` as payload when `x` is truthy; when `x` is falsy,
the code takes the two-argument branch, so `x`'s string form becomes the
event type (throwing for `null`/`undefined`) and the payload is
`undefined`.  `push(e, d)` with a second argument other than `undefined`
dispatches an event whose type is the string form of `e` with `d` as
payload. -/
theorem C3_push_amended (cfg : SessionConfig) (rnd : List Nat) (s : SessionState) :
    (∀ x : JSValue, x.truthy = true →
        Session.push cfg rnd x JSValue.undefined s =
          some { lastId := bytesToHex rnd,
                 trace := s.trace ++ pushTrace cfg rnd messageKey x })
    ∧ (∀ e d : JSValue, d ≠ JSValue.undefined → ∀ nm, e.jsToString = some nm →
        Session.push cfg rnd e d s =
          some { lastId := bytesToHex rnd,
                 trace := s.trace ++ pushTrace cfg rnd nm d })
    ∧ (∀ x : JSValue, x.truthy = false →
        Session.push cfg rnd x JSValue.undefined s =
          (x.jsToString).map (fun nm =>
            { lastId := bytesToHex rnd,
              trace := s.trace ++ pushTrace cfg rnd nm JSValue.undefined })) := by
  refine ⟨fun x hx => ?_, fun e d hd nm hnm => ?_, fun x hx => ?_⟩
  · apply Session.push_eq cfg rnd _ _ (messageKey, x) s
    have hcond : (x.truthy && (JSValue.undefined == JSValue.undefined)) = true := by
      simp [hx]
    unfold Session.pushResolve
    rw [hcond]
    simp
  · apply Session.push_eq cfg rnd _ _ (nm, d) s
    have hcond : (e.truthy && (d == JSValue.undefined)) = false := by
      simp [hd]
    unfold Session.pushResolve
    rw [hcond]
    simp [hnm]
  · cases hts : x.jsToString with
    | none =>
      have hres : Session.pushResolve x JSValue.undefined = none := by
        have hcond : (x.truthy && (JSValue.undefined == JSValue.undefined)) = false := by
          simp [hx]
        unfold Session.pushResolve
        rw [hcond]
        simp [hts]
      rw [Session.push, hres]
      rfl
    | some nm =>
      have hres : Session.pushResolve x JSValue.undefined =
          some (nm, JSValue.undefined) := by
        have hcond : (x.truthy && (JSValue.undefined == JSValue.undefined)) = false := by
          simp [hx]
        unfold Session.pushResolve
        rw [hcond]
        simp [hts]
      rw [Session.push_eq cfg rnd _ _ (nm, JSValue.undefined) s hres]
      rfl

/-- Claim C3, witness: `push("hi")` with one (truthy) argument dispatches a
`"message"` event carrying `"hi"`. -/
theorem C3_push_amended_witness :
    (JSValue.str ['h', 'i']).truthy = true ∧
    Session.push defaultConfig [1, 2, 3, 4] (JSValue.str ['h', 'i'])
        JSValue.undefined initSession =
      some { lastId := bytesToHex [1, 2, 3, 4],
             trace := initSession.trace ++
               pushTrace defaultConfig [1, 2, 3, 4] messageKey
                 (JSValue.str ['h', 'i']) } :=
  ⟨by decide,
   (C3_push_amended defaultConfig [1, 2, 3, 4] initSession).1 _ (by decide)⟩

/-- Claim C4: every successful `push` composes `event`, `id`, `data`,
`dispatch` in that order; the written identifier is the hex rendering of the
four drawn bytes — eight characters, all in `[0-9a-f]`, passed through the
default sanitizer unchanged — and the hex rendering is injective on 4-byte
draws, so distinct draws give distinct identifiers. -/
theorem C4_push_id (cfg : SessionConfig) (rnd : List Nat) (e d : JSValue)
    (p : List Char × JSValue) (s : SessionState)
    (hlen : rnd.length = 4) (hbytes : ∀ b ∈ rnd, b < 256)
    (hres : Session.pushResolve e d = some p) :
    Session.push cfg rnd e d s =
      some { lastId := bytesToHex rnd,
             trace := s.trace ++ pushTrace cfg rnd p.1 p.2 }
    ∧ (bytesToHex rnd).length = 8
    ∧ (∀ c ∈ bytesToHex rnd, isLowerHexDigit c = true)
    ∧ sanitizeDefault (bytesToHex rnd) = bytesToHex rnd
    ∧ (∀ rnd2 : List Nat, rnd2.length = 4 → (∀ b ∈ rnd2, b < 256) →
        bytesToHex rnd = bytesToHex rnd2 → rnd = rnd2) := by
  refine ⟨Session.push_eq cfg rnd e d p s hres, ?_, ?_, ?_, ?_⟩
  · rw [bytesToHex_length, hlen]
  · exact fun c hc => bytesToHex_lowerHex c rnd hc
  · exact sanitizeDefault_id _ (fun c hc => bytesToHex_noNewlines c rnd hc)
  · intro rnd2 h2 hb2 he
    exact bytesToHex_inj rnd rnd2 (by rw [hlen, h2]) hbytes hb2 he

/-- Claim C4, witness: the conclusion at the byte draw `[0, 17, 171, 255]`
(hex `0011abff`) and a concrete `push("a")` call. -/
theorem C4_push_id_witness :
    ([0, 17, 171, 255] : List Nat).length = 4
    ∧ (∀ b ∈ ([0, 17, 171, 255] : List Nat), b < 256)
    ∧ Session.pushResolve (JSValue.str ['a']) JSValue.undefined =
        some (messageKey, JSValue.str ['a'])
    ∧ (Session.push defaultConfig [0, 17, 171, 255] (JSValue.str ['a'])
          JSValue.undefined initSession =
        some { lastId := bytesToHex [0, 17, 171, 255],
               trace := initSession.trace ++
                 pushTrace defaultConfig [0, 17, 171, 255]
                   (messageKey, JSValue.str ['a']).1
                   (messageKey, JSValue.str ['a']).2 }
      ∧ (bytesToHex [0, 17, 171, 255]).length = 8
      ∧ (∀ c ∈ bytesToHex [0, 17, 171, 255], isLowerHexDigit c = true)
      ∧ sanitizeDefault (bytesToHex [0, 17, 171, 255]) = bytesToHex [0, 17, 171, 255]
      ∧ (∀ rnd2 : List Nat, rnd2.length = 4 → (∀ b ∈ rnd2, b < 256) →
          bytesToHex [0, 17, 171, 255] = bytesToHex rnd2 →
          [0, 17, 171, 255] = rnd2)) :=
  ⟨by decide, by decide, by decide,
   C4_push_id defaultConfig [0, 17, 171, 255] (JSValue.str ['a']) JSValue.undefined
     (messageKey, JSValue.str ['a']) initSession (by decide) (by decide) (by decide)⟩

/-- Claim C5: `id(null)` writes an `id` field with the (sanitized) empty
value and sets `lastId` to the empty string; `id(x)` writes
`id:sanitize(x)\n` and sets `lastId` to the unsanitized `x`; and no other
encoder operation or the disconnect handler changes `lastId`. -/
theorem C5_id_lastId (cfg : SessionConfig) :
    (∀ s : SessionState,
        Session.id cfg none s =
          { lastId := [],
            trace := s.trace ++
              [Action.write (idKey ++ COLON :: cfg.sanitize [] ++ [LF])] })
    ∧ (∀ (x : List Char) (s : SessionState),
        Session.id cfg (some x) s =
          { lastId := x,
            trace := s.trace ++
              [Action.write (idKey ++ COLON :: cfg.sanitize x ++ [LF])] })
    ∧ (∀ (t : List Char) (s : SessionState), (Session.event cfg t s).lastId = s.lastId)
    ∧ (∀ (d : JSValue) (s : SessionState), (Session.data cfg d s).lastId = s.lastId)
    ∧ (∀ (n : Nat) (s : SessionState), (Session.retry cfg n s).lastId = s.lastId)
    ∧ (∀ (t : Option (List Char)) (s : SessionState),
        (Session.comment cfg t s).lastId = s.lastId)
    ∧ (∀ s : SessionState, (Session.dispatch s).lastId = s.lastId)
    ∧ (∀ s : SessionState, (Session.onDisconnected s).lastId = s.lastId) := by
  refine ⟨fun s => rfl, fun x s => ?_, fun t s => rfl, fun d s => rfl, fun n s => rfl,
    fun t s => rfl, fun s => rfl, fun s => rfl⟩
  simp [Session.id, Session.writeField, idString_some]

/-- A request carrying no `last-event-id` header. -/
def emptyRequest : Request := { lastEventIdHeader := none }

/-- Claim C6: in every run in which the deferred initialization tick fires
exactly once, the `connected` notification appears exactly once in the
trace, strictly after the header flush (first conjunct: the trace splits
around a unique `emit connected`, whose prefix contains `flushHeaders`);
and the initialization sets `lastId` from the client-supplied header when
`trustClientEventId` is set, and leaves it unchanged (empty, absent any
`id` call) otherwise. -/
theorem C6_connected_once (cfg : SessionConfig) (req : Request)
    (evs : List ExtEvent) (h : evs.count ExtEvent.tick = 1) :
    (∃ l₁ l₂,
        (runEvents cfg req evs initSession).trace =
          l₁ ++ Action.emit connectedKey :: l₂
        ∧ Action.flushHeaders ∈ l₁
        ∧ Action.emit connectedKey ∉ l₁
        ∧ Action.emit connectedKey ∉ l₂)
    ∧ (∀ s : SessionState,
        (Session.onConnected cfg req s).lastId =
          if cfg.trustClientEventId then (req.lastEventIdHeader).getD []
          else s.lastId) := by
  constructor
  · rw [runEvents_trace]
    have h0 : initSession.trace = [] := rfl
    rw [h0, List.nil_append]
    exact traceOf_connected_decomp cfg evs h
  · intro s
    rw [onConnected_eq]

/-- Claim C6, witness: the run consisting of exactly the initialization
tick, at the default configuration and an empty request. -/
theorem C6_connected_once_witness :
    ([ExtEvent.tick] : List ExtEvent).count ExtEvent.tick = 1
    ∧ ((∃ l₁ l₂,
          (runEvents defaultConfig emptyRequest [ExtEvent.tick] initSession).trace =
            l₁ ++ Action.emit connectedKey :: l₂
          ∧ Action.flushHeaders ∈ l₁
          ∧ Action.emit connectedKey ∉ l₁
          ∧ Action.emit connectedKey ∉ l₂)
      ∧ (∀ s : SessionState,
          (Session.onConnected defaultConfig emptyRequest s).lastId =
            if defaultConfig.trustClientEventId then
              (emptyRequest.lastEventIdHeader).getD []
            else s.lastId)) :=
  ⟨by decide, C6_connected_once defaultConfig emptyRequest [ExtEvent.tick] (by decide)⟩

/-- Claim C7: an unspecified `retry` option resolves to 2000; with
`retry: null`, the initialization writes nothing at all to the body (so in
particular no `retry` frame); with `retry: n`, the initialization trace is
the header phase (which contains the flush and no notification) followed by
exactly `retry:<base-10 n>\n` and the dispatch `\n`, followed by the
`connected` notification. -/
theorem C7_retry_config (cfg : SessionConfig) :
    (resolveOptions {}).initialRetry = some 2000
    ∧ (cfg.initialRetry = none →
        ∀ a ∈ connectedSegment cfg, ∀ v, a ≠ Action.write v)
    ∧ (∀ n, cfg.initialRetry = some n →
        connectedSegment cfg =
          headerBlock cfg ++
            Action.write (retryKey ++ COLON :: cfg.sanitize (natToDec n) ++ [LF]) ::
              Action.write [LF] :: [Action.emit connectedKey]
        ∧ Action.flushHeaders ∈ headerBlock cfg
        ∧ (∀ a ∈ headerBlock cfg, ∀ k, a ≠ Action.emit k)) := by
  refine ⟨rfl, fun hr a ha v => ?_, fun n hr => ⟨?_, flushHeaders_mem_headerBlock cfg,
    headerBlock_no_emit cfg⟩⟩
  · rw [connectedSegment_eq] at ha
    rcases List.mem_append.mp ha with h | h
    · rcases List.mem_append.mp h with h' | h'
      · exact headerBlock_no_write cfg a h' v
      · unfold retrySegment at h'
        rw [hr] at h'
        simp at h'
    · intro hx
      subst hx
      simp at h
  · rw [connectedSegment_eq, preConnected]
    unfold retrySegment
    rw [hr]
    simp [fieldAction, List.append_assoc]

/-- Claim C7, witness: the conclusion at the default configuration, whose
resolved `retry` is 2000. -/
theorem C7_retry_config_witness :
    (resolveOptions {}).initialRetry = some 2000
    ∧ (defaultConfig.initialRetry = none →
        ∀ a ∈ connectedSegment defaultConfig, ∀ v, a ≠ Action.write v)
    ∧ (∀ n, defaultConfig.initialRetry = some n →
        connectedSegment defaultConfig =
          headerBlock defaultConfig ++
            Action.write (retryKey ++ COLON ::
                defaultConfig.sanitize (natToDec n) ++ [LF]) ::
              Action.write [LF] :: [Action.emit connectedKey]
        ∧ Action.flushHeaders ∈ headerBlock defaultConfig
        ∧ (∀ a ∈ headerBlock defaultConfig, ∀ k, a ≠ Action.emit k)) :=
  C7_retry_config defaultConfig

/-- Claim C8: streaming a chunk list that then ends pushes one dispatched
event per chunk, in emission order, each built by `push(event, chunkText)`
with the configured type, and the completion resolves to `true` on the
first of `end`/`close`, the other one being a no-op in either order; the
default stream event type is `"stream"`. -/
theorem C8_stream_ok (cfg : SessionConfig) (evName : List Char)
    (rnds : Nat → List Nat) (chunks : List Chunk) (s : SessionState) :
    (runStream cfg evName rnds
        (chunks.map StreamEvent.dataEv ++ [StreamEvent.endEv, StreamEvent.closeEv])
        { settled := none, pushCount := 0, st := s }).settled =
      some (Settled.resolved true)
    ∧ (runStream cfg evName rnds
        (chunks.map StreamEvent.dataEv ++ [StreamEvent.closeEv, StreamEvent.endEv])
        { settled := none, pushCount := 0, st := s }).settled =
      some (Settled.resolved true)
    ∧ (runStream cfg evName rnds
        (chunks.map StreamEvent.dataEv ++ [StreamEvent.endEv, StreamEvent.closeEv])
        { settled := none, pushCount := 0, st := s }).st.trace =
      s.trace ++ ((chunks.enum).map (streamChunkTrace cfg rnds evName)).flatten
    ∧ resolveStreamOptions none = streamKey := by
  obtain ⟨lid, hrun⟩ := runStream_chunks cfg evName rnds chunks 0 none s
  refine ⟨?_, ?_, ?_, rfl⟩
  · rw [runStream_append, hrun]
    rfl
  · rw [runStream_append, hrun]
    rfl
  · rw [runStream_append, hrun]
    show (s.trace ++ _) = _
    rw [List.enum]

/-- Claim C9: when the producer errors after its chunks, the completion is
rejected with exactly the producer's error value, and — provided the
producer emits no data notification after the error, as a destroyed Node
stream does not — the session trace contains exactly the events pushed for
the chunks that preceded the error. -/
theorem C9_stream_error (cfg : SessionConfig) (evName : List Char)
    (rnds : Nat → List Nat) (chunks : List Chunk) (err : JSValue)
    (rest : List StreamEvent) (s : SessionState)
    (hrest : hasDataEv rest = false) :
    (runStream cfg evName rnds
        (chunks.map StreamEvent.dataEv ++ StreamEvent.errorEv err :: rest)
        { settled := none, pushCount := 0, st := s }).settled =
      some (Settled.rejected err)
    ∧ (runStream cfg evName rnds
        (chunks.map StreamEvent.dataEv ++ StreamEvent.errorEv err :: rest)
        { settled := none, pushCount := 0, st := s }).st.trace =
      s.trace ++ ((chunks.enum).map (streamChunkTrace cfg rnds evName)).flatten := by
  obtain ⟨lid, hrun⟩ := runStream_chunks cfg evName rnds chunks 0 none s
  have hafter :
      runStream cfg evName rnds (StreamEvent.errorEv err :: rest)
          { settled := none, pushCount := 0 + chunks.length,
            st := { lastId := lid,
                    trace := s.trace ++
                      ((List.enumFrom 0 chunks).map
                        (streamChunkTrace cfg rnds evName)).flatten } } =
        { settled := some (Settled.rejected err), pushCount := 0 + chunks.length,
          st := { lastId := lid,
                  trace := s.trace ++
                    ((List.enumFrom 0 chunks).map
                      (streamChunkTrace cfg rnds evName)).flatten } } := by
    rw [runStream]
    have hstep :
        streamStep cfg evName rnds (StreamEvent.errorEv err)
            { settled := none, pushCount := 0 + chunks.length,
              st := { lastId := lid,
                      trace := s.trace ++
                        ((List.enumFrom 0 chunks).map
                          (streamChunkTrace cfg rnds evName)).flatten } } =
          { settled := some (Settled.rejected err), pushCount := 0 + chunks.length,
            st := { lastId := lid,
                    trace := s.trace ++
                      ((List.enumFrom 0 chunks).map
                        (streamChunkTrace cfg rnds evName)).flatten } } := rfl
    rw [hstep]
    exact runStream_settled cfg evName rnds rest _ (Settled.rejected err) hrest rfl
  constructor
  · rw [runStream_append, hrun, hafter]
  · rw [runStream_append, hrun, hafter]
    show (s.trace ++ _) = _
    rw [List.enum]

/-- Claim C9, witness: one chunk `"a"`, then an error, then a late `close`
notification. -/
theorem C9_stream_error_witness :
    hasDataEv [StreamEvent.closeEv] = false
    ∧ ((runStream defaultConfig streamKey (fun _ => [0, 0, 0, 0])
          ([Chunk.strChunk ['a']].map StreamEvent.dataEv ++
            StreamEvent.errorEv (JSValue.str ['e']) :: [StreamEvent.closeEv])
          { settled := none, pushCount := 0, st := initSession }).settled =
        some (Settled.rejected (JSValue.str ['e']))
      ∧ (runStream defaultConfig streamKey (fun _ => [0, 0, 0, 0])
          ([Chunk.strChunk ['a']].map StreamEvent.dataEv ++
            StreamEvent.errorEv (JSValue.str ['e']) :: [StreamEvent.closeEv])
          { settled := none, pushCount := 0, st := initSession }).st.trace =
        initSession.trace ++
          (([Chunk.strChunk ['a']].enum).map
            (streamChunkTrace defaultConfig (fun _ => [0, 0, 0, 0]) streamKey)).flatten) :=
  ⟨by decide,
   C9_stream_error defaultConfig streamKey (fun _ => [0, 0, 0, 0])
     [Chunk.strChunk ['a']] (JSValue.str ['e']) [StreamEvent.closeEv] initSession
     (by decide)⟩

/-- Claim C10: when the transport's `close` notification fires before the
deferred initialization tick, the trace is the `disconnected` notification
followed by the full, unconditionally executed initialization segment —
which flushes headers, contains the automatic retry frame when one is
configured, and ends by emitting `connected` after `disconnected`. -/
theorem C10_close_before_tick (cfg : SessionConfig) (req : Request) :
    (runEvents cfg req [ExtEvent.close, ExtEvent.tick] initSession).trace =
      Action.emit disconnectedKey :: connectedSegment cfg
    ∧ Action.emit connectedKey ∈ connectedSegment cfg
    ∧ Action.flushHeaders ∈ connectedSegment cfg
    ∧ (∀ n, cfg.initialRetry = some n →
        Action.write (retryKey ++ COLON :: cfg.sanitize (natToDec n) ++ [LF])
          ∈ connectedSegment cfg) := by
  refine ⟨?_, ?_, ?_, fun n hr => ?_⟩
  · rw [runEvents_trace]
    simp [traceOf, eventTrace, initSession]
  · rw [connectedSegment_eq]
    exact List.mem_append_right _ (List.mem_singleton.mpr rfl)
  · rw [connectedSegment_eq]
    exact List.mem_append_left _ (flushHeaders_mem_preConnected cfg)
  · rw [connectedSegment_eq, preConnected]
    unfold retrySegment
    rw [hr]
    simp [fieldAction]

/-- Claim C10, witness: the `close`-then-`tick` run at the default
configuration, whose automatic retry frame carries 2000. -/
theorem C10_close_before_tick_witness :
    (runEvents defaultConfig emptyRequest [ExtEvent.close, ExtEvent.tick]
        initSession).trace =
      Action.emit disconnectedKey :: connectedSegment defaultConfig
    ∧ Action.emit connectedKey ∈ connectedSegment defaultConfig
    ∧ Action.flushHeaders ∈ connectedSegment defaultConfig
    ∧ (∀ n, defaultConfig.initialRetry = some n →
        Action.write (retryKey ++ COLON ::
            defaultConfig.sanitize (natToDec n) ++ [LF])
          ∈ connectedSegment defaultConfig) :=
  C10_close_before_tick defaultConfig emptyRequest

end BetterSSE
